import Mathlib

/-!
Verification of the journal-parsing and progress-metric core of `gpt_plan.py`.

Shallow embedding conventions:
* calendar dates are integers (proleptic Gregorian day numbers, computed by
  `daysFromCivil`); Python `date` subtraction `(a - b).days` becomes integer
  subtraction and date comparison becomes integer comparison;
* Python floats are modelled as rationals `ℚ`;
* the journal directory is modelled as a map from day numbers to the optional
  list of lines of that day's file (`FS`);
* a Python exception (`ValueError` from `float`, the `NameError` raised by the
  undefined variable `yest` in the main flow) is an `Except PyErr` error value;
* the three regexes `EST_RE`, `DUR_DONE`, `DUR_TODO` share the shape
  `literal-prefix  \s*  [0-9.]+  'h'  close-bracket` in which the character
  classes are disjoint from the adjacent literals, so Python's backtracking
  search/sub coincide with the deterministic matchers `annotAt`, `searchAnnot`
  and `subAnnot` defined below.
-/

/-- Whitespace as matched by Python's `\s` and `str.strip` (ASCII part). -/
def pySpace (c : Char) : Bool :=
  c == ' ' || c == '\t' || c == '\n' || c == '\r' || c == '\x0b' || c == '\x0c'

/-- The regex character class `[0-9\.]` used by all three annotation regexes. -/
def isNumDot (c : Char) : Bool :=
  decide (48 ≤ c.toNat ∧ c.toNat ≤ 57) || c == '.'

/-- Python `str.strip()`: remove leading and trailing whitespace. -/
def stripChars (l : List Char) : List Char :=
  (((l.dropWhile pySpace).reverse).dropWhile pySpace).reverse

/-- Match a literal character sequence at the head of a list, returning the
remainder (the building block for the literal parts of the regexes). -/
def dropLead : List Char → List Char → Option (List Char)
  | [], l => some l
  | _ :: _, [] => none
  | p :: ps, c :: cs => if c = p then dropLead ps cs else none

/-- Decimal digits folded to a natural number. -/
def digitsToNat (l : List Char) : ℕ :=
  l.foldl (fun a c => 10 * a + (c.toNat - 48)) 0

/-- Python `float()` restricted to the strings produced by the `[0-9\.]+`
capture groups: defined iff there is at most one dot and at least one digit
(`float("1.2.3")` and `float(".")` raise `ValueError`). -/
def pyFloat (l : List Char) : Option ℚ :=
  let ip := l.takeWhile (fun c => c ≠ '.')
  match l.dropWhile (fun c => c ≠ '.') with
  | [] => if ip.isEmpty then none else some (digitsToNat ip)
  | _ :: fp =>
    if fp.contains '.' then none
    else if ip.isEmpty && fp.isEmpty then none
    else some ((digitsToNat ip : ℚ) + (digitsToNat fp : ℚ) / (10 : ℚ) ^ fp.length)

/-- Literal prefix of `EST_RE = \(预计\s*([0-9\.]+)h\)`. -/
def estPre : List Char := ['(', '预', '计']

/-- Literal prefix of `DUR_DONE = \[耗时\s*([0-9\.]+)h\]`. -/
def durDonePre : List Char := ['[', '耗', '时']

/-- Literal prefix of `DUR_TODO = \[已耗时\s*([0-9\.]+)h\]`. -/
def durTodoPre : List Char := ['[', '已', '耗', '时']

/-- Match one annotation regex (`pre  \s*  [0-9.]+  'h'  close`) at the head of
the list; on success return the capture group and the remainder after the
match.  All three annotation regexes are instances of this shape. -/
def annotAt (pre : List Char) (close : Char) (l : List Char) : Option (List Char × List Char) :=
  match dropLead pre l with
  | none => none
  | some r0 =>
    match (r0.dropWhile pySpace).takeWhile isNumDot, (r0.dropWhile pySpace).dropWhile isNumDot with
    | [], _ => none
    | n0 :: ns, 'h' :: c2 :: rest => if c2 = close then some (n0 :: ns, rest) else none
    | _ :: _, _ => none

/-- Python `regex.search(...)` for an annotation regex: the capture group of the
leftmost match, if any. -/
def searchAnnot (pre : List Char) (close : Char) : List Char → Option (List Char)
  | [] => none
  | c :: s =>
    match annotAt pre close (c :: s) with
    | some (num, _) => some num
    | none => searchAnnot pre close s

/-- Fuelled worker for `subAnnot` (structural recursion so that it evaluates
definitionally). -/
def subAnnotFuel (pre : List Char) (close : Char) : ℕ → List Char → List Char
  | 0, l => l
  | _ + 1, [] => []
  | f + 1, c :: s =>
    match annotAt pre close (c :: s) with
    | some (_, rest) => subAnnotFuel pre close f rest
    | none => c :: subAnnotFuel pre close f s

/-- Python `regex.sub("", ...)` for an annotation regex: remove every
non-overlapping match, scanning left to right. -/
def subAnnot (pre : List Char) (close : Char) (l : List Char) : List Char :=
  subAnnotFuel pre close l.length l

/-- The two task status markers captured by `TASK_RE = ^- (TODO|DONE)\s+(.*)$`. -/
inductive St
  | DONE
  | TODO
deriving DecidableEq, Repr

/-- Python `TASK_RE.match(line)` on an already-stripped line: `- `, then `TODO`
or `DONE`, then at least one whitespace character (consumed greedily), then the
captured rest of the line. -/
def taskMatch (l : List Char) : Option (St × List Char) :=
  match dropLead ['-', ' '] l with
  | none => none
  | some r =>
    match dropLead ['T', 'O', 'D', 'O'] r with
    | some r2 =>
      match r2 with
      | c :: _ => if pySpace c then some (.TODO, r2.dropWhile pySpace) else none
      | [] => none
    | none =>
      match dropLead ['D', 'O', 'N', 'E'] r with
      | some r2 =>
        match r2 with
        | c :: _ => if pySpace c then some (.DONE, r2.dropWhile pySpace) else none
        | [] => none
      | none => none

/-- Python exceptions that the embedded fragment can raise. -/
inductive PyErr
  | valueError
  | nameError
deriving DecidableEq, Repr

/-- The idiom `float(m.group(1)) if m else default` applied to a search result:
absent annotation yields the default, a malformed number raises `ValueError`. -/
def pyFloatOrDefault (m : Option (List Char)) (dflt : ℚ) : Except PyErr ℚ :=
  match m with
  | none => .ok dflt
  | some s =>
    match pyFloat s with
    | some q => .ok q
    | none => .error .valueError

/-- A completed task record: `{"text": txt, "est": est, "dur": dur}`. -/
structure DoneRec where
  text : List Char
  est : ℚ
  dur : ℚ
deriving DecidableEq, Repr

/-- An open task record: `{"text": txt, "est": est, "spent": spent}`. -/
structure TodoRec where
  text : List Char
  est : ℚ
  spent : ℚ
deriving DecidableEq, Repr

/-- Clean description of a DONE line: `DUR_DONE.sub("", EST_RE.sub("", txt)).strip()`. -/
def stripDoneText (txt : List Char) : List Char :=
  stripChars (subAnnot durDonePre ']' (subAnnot estPre ')' txt))

/-- Clean description of a TODO line: `DUR_TODO.sub("", EST_RE.sub("", txt)).strip()`. -/
def stripTodoText (txt : List Char) : List Char :=
  stripChars (subAnnot durTodoPre ']' (subAnnot estPre ')' txt))

/-- Lines 68-81 of the source: from the status and the captured text of a
matched task line, compute the emitted record (estimate first, then the
status-specific duration/spent annotation and the cleaned description). -/
def parseTask (st : St) (txt : List Char) : Except PyErr (DoneRec ⊕ TodoRec) :=
  match pyFloatOrDefault (searchAnnot estPre ')' txt) 2 with
  | .error e => .error e
  | .ok est =>
    match st with
    | .DONE =>
      match pyFloatOrDefault (searchAnnot durDonePre ']' txt) est with
      | .error e => .error e
      | .ok dur => .ok (.inl ⟨stripDoneText txt, est, dur⟩)
    | .TODO =>
      match pyFloatOrDefault (searchAnnot durTodoPre ']' txt) 0 with
      | .error e => .error e
      | .ok spent => .ok (.inr ⟨stripTodoText txt, est, spent⟩)

/-- Processing of a single journal line inside `parse_tasks_for_date`:
`none` when `TASK_RE` does not match (the line is ignored), otherwise the
emitted record; `ValueError` when a matched annotation number is malformed. -/
def parseLine (line : List Char) : Except PyErr (Option (DoneRec ⊕ TodoRec)) :=
  match taskMatch (stripChars line) with
  | none => .ok none
  | some (st, txt) => (parseTask st txt).map some

/-- The line loop of `parse_tasks_for_date`, accumulating the `done` and `todo`
lists in file order. -/
def parseLines : List (List Char) → Except PyErr (List DoneRec × List TodoRec)
  | [] => .ok ([], [])
  | l :: ls =>
    match parseLine l with
    | .error e => .error e
    | .ok none => parseLines ls
    | .ok (some (.inl d)) =>
      match parseLines ls with
      | .error e => .error e
      | .ok (ds, ts) => .ok (d :: ds, ts)
    | .ok (some (.inr t)) =>
      match parseLines ls with
      | .error e => .error e
      | .ok (ds, ts) => .ok (ds, t :: ts)

/-- The journal directory: for each day number, the lines of that day's file,
or `none` when the file does not exist. -/
def FS : Type := ℤ → Option (List (List Char))

/-- `parse_tasks_for_date(date)`: an absent file yields two empty lists. -/
def parse_tasks_for_date (fs : FS) (date : ℤ) : Except PyErr (List DoneRec × List TodoRec) :=
  match fs date with
  | none => .ok ([], [])
  | some lines => parseLines lines

/-- The loop of `find_latest_log`: `delta` is the current lookback offset and
the recursion counts down the remaining iterations of `range(1, max+1)`. -/
def find_from (fs : FS) (today : ℤ) (delta : ℕ) :
    ℕ → Except PyErr (Option ℤ × List DoneRec × List TodoRec)
  | 0 => .ok (none, [], [])
  | n + 1 =>
    match parse_tasks_for_date fs (today - (delta : ℤ)) with
    | .error e => .error e
    | .ok (d, t) =>
      if d ≠ [] ∨ t ≠ [] then .ok (some (today - (delta : ℤ)), d, t)
      else find_from fs today (delta + 1) n

/-- `find_latest_log(today, max_lookback)`: walk back `1 .. max_lookback` days
and return the first day with a nonempty record set, else `(None, [], [])`. -/
def find_latest_log (fs : FS) (today : ℤ) (maxLookback : ℕ) :
    Except PyErr (Option ℤ × List DoneRec × List TodoRec) :=
  find_from fs today 1 maxLookback

/-- Proleptic Gregorian day number of a calendar date (the standard
days-from-civil computation); `dt.date` subtraction and comparison correspond
to subtraction and comparison of these numbers. -/
def daysFromCivil (y m d : ℤ) : ℤ :=
  let y' := if m ≤ 2 then y - 1 else y
  let era := (if 0 ≤ y' then y' else y' - 399) / 400
  let yoe := y' - era * 400
  let mp := (m + 9) % 12
  let doy := (153 * mp + 2) / 5 + d - 1
  let doe := yoe * 365 + yoe / 4 - yoe / 100 + doy
  era * 146097 + doe - 719468

/-- One entry of the `PHASES` table: `(code, start, end, description)`. -/
structure PhaseDef where
  code : String
  startDate : ℤ
  endDate : ℤ
  desc : String
deriving DecidableEq, Repr

/-- The static `PHASES` table of `gpt_plan.py`. -/
def PHASES : List PhaseDef := [
  ⟨"P0", daysFromCivil 2025 4 22, daysFromCivil 2025 5 15,
    "2D CFD: Stokes5 & focusing wave, grid convergence (<3%)"⟩,
  ⟨"P1", daysFromCivil 2025 5 16, daysFromCivil 2025 6 10,
    "2D NewWave focusing wave + draft"⟩,
  ⟨"P2", daysFromCivil 2025 6 11, daysFromCivil 2025 7 1,
    "2D wind-wave coupling, reflection (<2%)"⟩,
  ⟨"P3", daysFromCivil 2025 7 2, daysFromCivil 2025 7 20,
    "3D FOWT static blades ×2 moorings"⟩,
  ⟨"P4", daysFromCivil 2025 7 21, daysFromCivil 2025 8 1,
    "Thesis >=60 p + PPT 20 p"⟩]

/-- The fallback `PHASES[-1]` used by `get_current_phase`. -/
def lastPhase : PhaseDef := PHASES.getLast (by simp [PHASES])

/-- The loop of `get_current_phase`: first phase whose inclusive window
contains `today`. -/
def phaseLoop (today : ℤ) : List PhaseDef → Option (String × String)
  | [] => none
  | p :: ps =>
    if p.startDate ≤ today ∧ today ≤ p.endDate then some (p.code, p.desc)
    else phaseLoop today ps

/-- `get_current_phase(today)`: the first containing phase, with `PHASES[-1]`
as fallback (the clock read `date.today()` is passed in as `today`). -/
def get_current_phase (today : ℤ) : String × String :=
  match phaseLoop today PHASES with
  | some r => r
  | none => (lastPhase.code, lastPhase.desc)

/-- The dict `{c: (s, e) for c, s, e, _ in PHASES}` indexed by a code (later
entries would win, hence the lookup over the reversed table); `none` models the
`KeyError` on an unknown code. -/
def phasesDict (code : String) : Option (ℤ × ℤ) :=
  ((PHASES.reverse).find? (fun p => p.code == code)).map (fun p => (p.startDate, p.endDate))

/-- The arithmetic core of `get_time_progress` for a window `[s, e]`. -/
def timeProgressCore (today s e : ℤ) : ℚ :=
  if today ≤ s then 0
  else if e ≤ today then 1
  else ((today - s : ℤ) : ℚ) / ((e - s : ℤ) : ℚ)

/-- `get_time_progress(code)` with the clock read passed in as `today`. -/
def get_time_progress (today : ℤ) (code : String) : Option ℚ :=
  (phasesDict code).map fun se => timeProgressCore today se.1 se.2

/-- Line 218: `total_est = sum(x['est'] for x in done_y + todo_y)`. -/
def total_est (dy : List DoneRec) (ty : List TodoRec) : ℚ :=
  ((dy.map DoneRec.est) ++ (ty.map TodoRec.est)).sum

/-- Line 219: `total_spent = sum(x['dur'] for x in done_y) + sum(x['spent'] for x in todo_y)`. -/
def total_spent (dy : List DoneRec) (ty : List TodoRec) : ℚ :=
  (dy.map DoneRec.dur).sum + (ty.map TodoRec.spent).sum

/-- Line 220: `efficiency = total_spent / total_est if total_est else 1.0`. -/
def efficiency (dy : List DoneRec) (ty : List TodoRec) : ℚ :=
  if total_est dy ty ≠ 0 then total_spent dy ty / total_est dy ty else 1

/-- Line 221: `task_rate = len(done_y) / (len(done_y) + len(todo_y)) if (done_y or todo_y) else 0`. -/
def task_rate (dy : List DoneRec) (ty : List TodoRec) : ℚ :=
  if dy ≠ [] ∨ ty ≠ [] then (dy.length : ℚ) / ((dy.length : ℚ) + (ty.length : ℚ)) else 0

/-- The progress-calculator outputs of lines 218-223 as a function of its
inputs: totals, efficiency, completion rate, phase, time progress. -/
def calcMetrics (today : ℤ) (dy : List DoneRec) (ty : List TodoRec) :
    ℚ × ℚ × ℚ × ℚ × (String × String) × Option ℚ :=
  (total_est dy ty, total_spent dy ty, efficiency dy ty, task_rate dy ty,
    get_current_phase today, get_time_progress today (get_current_phase today).1)

/-- The journal directory in which no file exists for any date. -/
def fsEmpty : FS := fun _ => none

/-- The `__main__` flow up to the metric computation (lines 209-223).  After
the lookback and the `yest_date` defaulting, line 217 evaluates the name
`yest`, which is never assigned anywhere in the script, so a `NameError` is
raised before any metric is computed. -/
def main_flow (fs : FS) (today : ℤ) :
    Except PyErr (ℚ × ℚ × ℚ × ℚ × (String × String) × Option ℚ) :=
  match find_latest_log fs today 7 with
  | .error e => .error e
  | .ok (yd, _doneY, _todoY) =>
    let _yest_date : ℤ := yd.getD (today - 1)
    .error .nameError

/-- Estimate of a parsed record, whichever variant it is. -/
def recEst : DoneRec ⊕ TodoRec → ℚ
  | .inl d => d.est
  | .inr t => t.est

/-- A freshly rendered estimate annotation `(预计 Xh)` with number text `se`. -/
def estMarker (se : List Char) : List Char := estPre ++ ' ' :: (se ++ 'h' :: ')' :: [])

/-- A freshly rendered duration annotation `[耗时 Xh]` with number text `sd`. -/
def durDoneMarker (sd : List Char) : List Char := durDonePre ++ ' ' :: (sd ++ 'h' :: ']' :: [])

/-- A freshly rendered spent annotation `[已耗时 Xh]` with number text `sd`. -/
def durTodoMarker (sd : List Char) : List Char := durTodoPre ++ ' ' :: (sd ++ 'h' :: ']' :: [])

/-! Toolkit lemmas about the character-level matchers. -/

lemma len_dropWhile_le (q : Char → Bool) : ∀ l : List Char, (l.dropWhile q).length ≤ l.length := by
  intro l
  induction l with
  | nil => simp
  | cons c s ih =>
    rw [List.dropWhile_cons]
    split
    · exact ih.trans (Nat.le_succ _)
    · exact le_refl _

lemma dropWhile_fix_head (q : Char → Bool) (c : Char) (s : List Char)
    (h : (c :: s).dropWhile q = c :: s) : q c = false := by
  by_contra hc
  have hc' : q c = true := by simpa using hc
  rw [List.dropWhile_cons, if_pos hc'] at h
  have h1 := len_dropWhile_le q s
  have h2 := congrArg List.length h
  simp at h2
  omega

lemma dropWhile_head_of_neg (q : Char → Bool) (c : Char) (s : List Char)
    (hc : q c = false) : (c :: s).dropWhile q = c :: s := by
  rw [List.dropWhile_cons, if_neg (by simp [hc])]

lemma dropLead_len_le : ∀ (p l r : List Char), dropLead p l = some r → r.length ≤ l.length := by
  intro p
  induction p with
  | nil =>
    intro l r h
    simp only [dropLead, Option.some.injEq] at h
    subst h
    exact le_refl _
  | cons x xs ih =>
    intro l r h
    cases l with
    | nil => simp [dropLead] at h
    | cons c cs =>
      simp only [dropLead] at h
      split at h
      · exact (ih cs r h).trans (Nat.le_succ _)
      · exact absurd h (by simp)

lemma dropLead_self : ∀ (p r : List Char), dropLead p (p ++ r) = some r := by
  intro p
  induction p with
  | nil => intro r; rfl
  | cons x xs ih => intro r; simp [dropLead, ih r]

lemma annotAt_rest_len (pre : List Char) (close : Char) (l num rest : List Char)
    (h : annotAt pre close l = some (num, rest)) : rest.length < l.length := by
  cases hd : dropLead pre l with
  | none =>
    simp only [annotAt, hd] at h
    exact absurd h (by simp)
  | some r0 =>
    have hr0 : r0.length ≤ l.length := dropLead_len_le pre l r0 hd
    have hr1 : ((r0.dropWhile pySpace).dropWhile isNumDot).length ≤ r0.length :=
      (len_dropWhile_le isNumDot _).trans (len_dropWhile_le pySpace _)
    simp only [annotAt, hd] at h
    split at h
    · simp at h
    · split at h
      · rename_i n0 ns c2 rest' heqt heqd hc2
        have hr : rest' = rest := by
          simp only [Option.some.injEq, Prod.mk.injEq] at h
          exact h.2
        subst hr
        have h2 := congrArg List.length heqd
        simp only [List.length_cons] at h2
        omega
      · simp at h
    · simp at h

lemma annotAt_none_of_head (p0 : Char) (ps : List Char) (close c : Char) (s : List Char)
    (h : c ≠ p0) : annotAt (p0 :: ps) close (c :: s) = none := by
  have hd : dropLead (p0 :: ps) (c :: s) = none := by simp [dropLead, h]
  simp only [annotAt, hd]

lemma searchAnnot_cons_none (pre : List Char) (close c : Char) (s : List Char)
    (h : annotAt pre close (c :: s) = none) :
    searchAnnot pre close (c :: s) = searchAnnot pre close s := by
  have e : searchAnnot pre close (c :: s) =
      match annotAt pre close (c :: s) with
      | some (num, _) => some num
      | none => searchAnnot pre close s := rfl
  rw [e, h]

lemma searchAnnot_cons_some (pre : List Char) (close c : Char) (s num rest : List Char)
    (h : annotAt pre close (c :: s) = some (num, rest)) :
    searchAnnot pre close (c :: s) = some num := by
  have e : searchAnnot pre close (c :: s) =
      match annotAt pre close (c :: s) with
      | some (num, _) => some num
      | none => searchAnnot pre close s := rfl
  rw [e, h]

lemma subAnnotFuel_step (pre : List Char) (close : Char) (f : ℕ) (c : Char) (s : List Char) :
    subAnnotFuel pre close (f + 1) (c :: s) =
      match annotAt pre close (c :: s) with
      | some (_, rest) => subAnnotFuel pre close f rest
      | none => c :: subAnnotFuel pre close f s := rfl

lemma subAnnotFuel_congr (pre : List Char) (close : Char) :
    ∀ (f₁ f₂ : ℕ) (l : List Char), l.length ≤ f₁ → l.length ≤ f₂ →
      subAnnotFuel pre close f₁ l = subAnnotFuel pre close f₂ l := by
  intro f₁
  induction f₁ with
  | zero =>
    intro f₂ l h1 _
    have hl : l = [] := List.length_eq_zero.mp (Nat.le_zero.mp h1)
    subst hl
    cases f₂ <;> rfl
  | succ f ih =>
    intro f₂ l h1 h2
    cases l with
    | nil => cases f₂ <;> rfl
    | cons c s =>
      cases f₂ with
      | zero => simp at h2
      | succ f₂' =>
        simp only [List.length_cons] at h1 h2
        rw [subAnnotFuel_step, subAnnotFuel_step]
        cases hA : annotAt pre close (c :: s) with
        | none =>
          show c :: subAnnotFuel pre close f s = c :: subAnnotFuel pre close f₂' s
          rw [ih f₂' s (by omega) (by omega)]
        | some v =>
          obtain ⟨num, rest⟩ := v
          have hr := annotAt_rest_len pre close (c :: s) num rest hA
          simp only [List.length_cons] at hr
          show subAnnotFuel pre close f rest = subAnnotFuel pre close f₂' rest
          exact ih f₂' rest (by omega) (by omega)

lemma subAnnot_cons_none (pre : List Char) (close c : Char) (s : List Char)
    (h : annotAt pre close (c :: s) = none) :
    subAnnot pre close (c :: s) = c :: subAnnot pre close s := by
  show subAnnotFuel pre close (s.length + 1) (c :: s) = _
  rw [subAnnotFuel_step, h]
  rfl

lemma subAnnot_cons_some (pre : List Char) (close c : Char) (s num rest : List Char)
    (h : annotAt pre close (c :: s) = some (num, rest)) :
    subAnnot pre close (c :: s) = subAnnot pre close rest := by
  have hr := annotAt_rest_len pre close (c :: s) num rest h
  simp only [List.length_cons] at hr
  show subAnnotFuel pre close (s.length + 1) (c :: s) = _
  rw [subAnnotFuel_step, h]
  exact subAnnotFuel_congr pre close s.length rest.length rest (by omega) (le_refl _)

lemma searchAnnot_append (p0 : Char) (ps : List Char) (close : Char) :
    ∀ (a b : List Char), (∀ c ∈ a, c ≠ p0) →
      searchAnnot (p0 :: ps) close (a ++ b) = searchAnnot (p0 :: ps) close b := by
  intro a
  induction a with
  | nil => intro b _; rfl
  | cons c a' ih =>
    intro b ha
    rw [List.cons_append,
      searchAnnot_cons_none _ _ _ _ (annotAt_none_of_head p0 ps close c _ (ha c (by simp)))]
    exact ih b (fun x hx => ha x (by simp [hx]))

lemma searchAnnot_none_of_all (p0 : Char) (ps : List Char) (close : Char) (a : List Char)
    (ha : ∀ c ∈ a, c ≠ p0) : searchAnnot (p0 :: ps) close a = none := by
  rw [← List.append_nil a, searchAnnot_append p0 ps close a [] ha]
  rfl

lemma subAnnot_append (p0 : Char) (ps : List Char) (close : Char) :
    ∀ (a b : List Char), (∀ c ∈ a, c ≠ p0) →
      subAnnot (p0 :: ps) close (a ++ b) = a ++ subAnnot (p0 :: ps) close b := by
  intro a
  induction a with
  | nil => intro b _; rfl
  | cons c a' ih =>
    intro b ha
    rw [List.cons_append,
      subAnnot_cons_none _ _ _ _ (annotAt_none_of_head p0 ps close c _ (ha c (by simp))),
      ih b (fun x hx => ha x (by simp [hx])), List.cons_append]

lemma subAnnot_id_of_all (p0 : Char) (ps : List Char) (close : Char) (a : List Char)
    (ha : ∀ c ∈ a, c ≠ p0) : subAnnot (p0 :: ps) close a = a := by
  have h := subAnnot_append p0 ps close a [] ha
  have h0 : subAnnot (p0 :: ps) close ([] : List Char) = [] := rfl
  simp only [List.append_nil, h0] at h
  exact h

lemma subAnnot_id_of_search_none (pre : List Char) (close : Char) :
    ∀ l : List Char, searchAnnot pre close l = none → subAnnot pre close l = l := by
  intro l
  induction l with
  | nil => intro _; rfl
  | cons c s ih =>
    intro h
    cases hA : annotAt pre close (c :: s) with
    | some v =>
      obtain ⟨num, rest⟩ := v
      rw [searchAnnot_cons_some pre close c s num rest hA] at h
      exact absurd h (by simp)
    | none =>
      rw [searchAnnot_cons_none pre close c s hA] at h
      rw [subAnnot_cons_none pre close c s hA, ih h]

lemma space_cases (c : Char) (h : pySpace c = true) :
    c = ' ' ∨ c = '\t' ∨ c = '\n' ∨ c = '\r' ∨ c = '\x0b' ∨ c = '\x0c' := by
  simpa [pySpace, or_assoc] using h

lemma numdot_not_space (c : Char) (h : isNumDot c = true) : pySpace c = false := by
  by_contra hc
  have hc' : pySpace c = true := by simpa using hc
  rcases space_cases c hc' with e | e | e | e | e | e <;> subst e <;> exact absurd h (by decide)

lemma numdot_ne_paren (c : Char) (h : isNumDot c = true) : c ≠ '(' := by
  intro e; subst e; exact absurd h (by decide)

lemma numdot_ne_brak (c : Char) (h : isNumDot c = true) : c ≠ '[' := by
  intro e; subst e; exact absurd h (by decide)

lemma takeWhile_middle (q : Char → Bool) :
    ∀ (a : List Char) (c : Char) (b : List Char), (∀ x ∈ a, q x = true) → q c = false →
      (a ++ c :: b).takeWhile q = a ∧ (a ++ c :: b).dropWhile q = c :: b := by
  intro a
  induction a with
  | nil =>
    intro c b _ hc
    constructor
    · simp [List.takeWhile_cons, hc]
    · simp [List.dropWhile_cons, hc]
  | cons x a' ih =>
    intro c b ha hc
    have hx : q x = true := ha x (by simp)
    have hr := ih c b (fun y hy => ha y (by simp [hy])) hc
    constructor
    · simp [List.takeWhile_cons, hx, hr.1]
    · simp [List.dropWhile_cons, hx, hr.2]

lemma annotAt_shape (pre : List Char) (close : Char) (l r0 : List Char)
    (hd : dropLead pre l = some r0) :
    annotAt pre close l =
      match (r0.dropWhile pySpace).takeWhile isNumDot, (r0.dropWhile pySpace).dropWhile isNumDot with
      | [], _ => none
      | n0 :: ns, 'h' :: c2 :: rest => if c2 = close then some (n0 :: ns, rest) else none
      | _ :: _, _ => none := by
  unfold annotAt
  rw [hd]

lemma annotAt_marker (pre : List Char) (close : Char) (se r : List Char)
    (hse : ∀ c ∈ se, isNumDot c = true) (hne : se ≠ []) :
    annotAt pre close (pre ++ ' ' :: (se ++ 'h' :: close :: r)) = some (se, r) := by
  obtain ⟨s0, se', rfl⟩ : ∃ s0 se', se = s0 :: se' := by
    cases se with
    | nil => exact absurd rfl hne
    | cons s0 se' => exact ⟨s0, se', rfl⟩
  have hs0 : pySpace s0 = false := numdot_not_space s0 (hse s0 (by simp))
  have hdw : (' ' :: ((s0 :: se') ++ 'h' :: close :: r)).dropWhile pySpace =
      (s0 :: se') ++ 'h' :: close :: r := by
    rw [List.dropWhile_cons, if_pos (by decide), List.cons_append]
    exact dropWhile_head_of_neg pySpace s0 _ hs0
  have hmid := takeWhile_middle isNumDot (s0 :: se') 'h' (close :: r) hse (by decide)
  rw [annotAt_shape pre close _ _ (dropLead_self pre _), hdw, hmid.1, hmid.2]
  simp

lemma stripChars_eq_self (l : List Char) (h1 : l.dropWhile pySpace = l)
    (h2 : l.reverse.dropWhile pySpace = l.reverse) : stripChars l = l := by
  unfold stripChars
  rw [h1, h2, List.reverse_reverse]

/-! Lemmas about the lookback loop. -/

lemma find_from_found (fs : FS) (today : ℤ) :
    ∀ (n delta : ℕ) (day : ℤ) (dn : List DoneRec) (td : List TodoRec),
      find_from fs today delta n = .ok (some day, dn, td) →
      (dn ≠ [] ∨ td ≠ []) ∧ parse_tasks_for_date fs day = .ok (dn, td) ∧
      ∃ k : ℕ, delta ≤ k ∧ k < delta + n ∧ day = today - (k : ℤ) ∧
        ∀ j : ℕ, delta ≤ j → j < k → parse_tasks_for_date fs (today - (j : ℤ)) = .ok ([], []) := by
  intro n
  induction n with
  | zero => intro delta day dn td h; exact absurd h (by simp [find_from])
  | succ n ih =>
    intro delta day dn td h
    cases hp : parse_tasks_for_date fs (today - (delta : ℤ)) with
    | error e =>
      have hstep : find_from fs today delta (n + 1) = .error e := by
        rw [find_from, hp]
      rw [hstep] at h
      exact absurd h (by simp)
    | ok dt =>
      obtain ⟨d, t⟩ := dt
      have hstep : find_from fs today delta (n + 1) =
          if d ≠ [] ∨ t ≠ [] then .ok (some (today - (delta : ℤ)), d, t)
          else find_from fs today (delta + 1) n := by
        rw [find_from, hp]
      rw [hstep] at h
      by_cases hc : d ≠ [] ∨ t ≠ []
      · rw [if_pos hc] at h
        have h1 : some (today - (delta : ℤ)) = some day ∧ d = dn ∧ t = td := by
          simpa using h
        obtain ⟨hday, hdn, htd⟩ := h1
        have hday' : today - (delta : ℤ) = day := by simpa using hday
        subst hdn; subst htd
        refine ⟨hc, hday' ▸ hp, delta, le_refl _, by omega, hday'.symm, ?_⟩
        intro j hj1 hj2
        omega
      · rw [if_neg hc] at h
        push_neg at hc
        obtain ⟨hd, ht⟩ := hc
        obtain ⟨hne, hpars, k, hk1, hk2, hk3, hk4⟩ := ih (delta + 1) day dn td h
        refine ⟨hne, hpars, k, by omega, by omega, hk3, ?_⟩
        intro j hj1 hj2
        rcases eq_or_lt_of_le hj1 with heq | hlt
        · subst heq
          rw [hp, hd, ht]
        · exact hk4 j (by omega) hj2

lemma find_from_not_found (fs : FS) (today : ℤ) :
    ∀ (n delta : ℕ),
      (∀ k : ℕ, delta ≤ k → k < delta + n →
        parse_tasks_for_date fs (today - (k : ℤ)) = .ok ([], [])) →
      find_from fs today delta n = .ok (none, [], []) := by
  intro n
  induction n with
  | zero => intro delta _; rfl
  | succ n ih =>
    intro delta h
    have h0 : parse_tasks_for_date fs (today - (delta : ℤ)) = .ok ([], []) :=
      h delta (le_refl _) (by omega)
    have hstep : find_from fs today delta (n + 1) =
        if ([] : List DoneRec) ≠ [] ∨ ([] : List TodoRec) ≠ []
        then .ok (some (today - (delta : ℤ)), ([] : List DoneRec), ([] : List TodoRec))
        else find_from fs today (delta + 1) n := by
      rw [find_from, h0]
    rw [hstep, if_neg (by simp)]
    exact ih (delta + 1) (fun k hk1 hk2 => h k (by omega) (by omega))

/-! Lemmas about phase selection. -/

lemma phaseLoop_first (today : ℤ) :
    ∀ (pre : List PhaseDef) (p : PhaseDef) (post : List PhaseDef),
      (∀ q ∈ pre, ¬ (q.startDate ≤ today ∧ today ≤ q.endDate)) →
      p.startDate ≤ today → today ≤ p.endDate →
      phaseLoop today (pre ++ p :: post) = some (p.code, p.desc) := by
  intro pre
  induction pre with
  | nil =>
    intro p post _ h1 h2
    simp [phaseLoop, h1, h2]
  | cons q qs ih =>
    intro p post hq h1 h2
    have hno : ¬ (q.startDate ≤ today ∧ today ≤ q.endDate) := hq q (by simp)
    rw [List.cons_append]
    show (if q.startDate ≤ today ∧ today ≤ q.endDate then some (q.code, q.desc)
      else phaseLoop today (qs ++ p :: post)) = some (p.code, p.desc)
    rw [if_neg hno]
    exact ih p post (fun x hx => hq x (by simp [hx])) h1 h2

lemma phaseLoop_none (today : ℤ) :
    ∀ l : List PhaseDef, (∀ p ∈ l, ¬ (p.startDate ≤ today ∧ today ≤ p.endDate)) →
      phaseLoop today l = none := by
  intro l
  induction l with
  | nil => intro _; rfl
  | cons q qs ih =>
    intro h
    show (if q.startDate ≤ today ∧ today ≤ q.endDate then some (q.code, q.desc)
      else phaseLoop today qs) = none
    rw [if_neg (h q (by simp))]
    exact ih (fun x hx => h x (by simp [hx]))

/-! The claim theorems. -/

/-- C1.  The claim says a run with no journal file in the 7-day lookback window
computes `completionRate = 0`, `efficiency = 1.0`, `totalEstimated = 0`,
`totalSpent = 0` after the lookback returns `(None, [], [])`.  The code cannot
do so: line 217 (`done_y, todo_y = parse_tasks_for_date(yest)`) evaluates the
name `yest`, which is assigned nowhere in the script, so every run raises
`NameError` right after the lookback and before any metric is computed. -/
theorem c1_main_flow_name_error (today : ℤ) :
    main_flow fsEmpty today = .error .nameError := rfl

/-- C2.  The lookback walks `today-1, ..., today-N`: when it returns a found
day, that day carries a nonempty record set, parses to exactly the returned
records, and is the closest day to `today` with any records (all strictly
closer days parse to `([], [])`); when every day in the window parses empty,
it returns the sentinel `(None, [], [])`. -/
theorem c2_lookback (fs : FS) (today : ℤ) (N : ℕ) (hN : 1 ≤ N) :
    (∀ (day : ℤ) (dn : List DoneRec) (td : List TodoRec),
        find_latest_log fs today N = .ok (some day, dn, td) →
        (dn ≠ [] ∨ td ≠ []) ∧ parse_tasks_for_date fs day = .ok (dn, td) ∧
        ∃ k : ℕ, 1 ≤ k ∧ k ≤ N ∧ day = today - (k : ℤ) ∧
          ∀ j : ℕ, 1 ≤ j → j < k → parse_tasks_for_date fs (today - (j : ℤ)) = .ok ([], [])) ∧
    ((∀ k : ℕ, 1 ≤ k → k ≤ N → parse_tasks_for_date fs (today - (k : ℤ)) = .ok ([], [])) →
      find_latest_log fs today N = .ok (none, [], [])) := by
  constructor
  · intro day dn td h
    obtain ⟨h1, h2, k, hk1, hk2, hk3, hk4⟩ := find_from_found fs today N 1 day dn td h
    exact ⟨h1, h2, k, hk1, by omega, hk3, hk4⟩
  · intro h
    exact find_from_not_found fs today N 1 (fun k hk1 hk2 => h k hk1 (by omega))

/-- Witness for C2 at a concrete empty journal directory. -/
theorem c2_lookback_witness : find_latest_log fsEmpty 0 7 = .ok (none, [], []) :=
  (c2_lookback fsEmpty 0 7 (by decide)).2 (fun _ _ _ => rfl)

/-- C4.  Time progress of a window `[s, e]` with `s < e` evaluated at `d`: `0`
when `d ≤ s`, `1` when `e ≤ d`, the day-ratio `(d - s) / (e - s)` strictly
inside, `1/2` at the midpoint of a 10-day window, and always within `[0, 1]`. -/
theorem c4_time_progress (s e d : ℤ) (h : s < e) :
    (d ≤ s → timeProgressCore d s e = 0) ∧
    (e ≤ d → timeProgressCore d s e = 1) ∧
    (s < d → d < e → timeProgressCore d s e = ((d - s : ℤ) : ℚ) / ((e - s : ℤ) : ℚ)) ∧
    timeProgressCore (s + 5) s (s + 10) = 1 / 2 ∧
    0 ≤ timeProgressCore d s e ∧ timeProgressCore d s e ≤ 1 := by
  refine ⟨?_, ?_, ?_, ?_, ?_⟩
  · intro hd
    rw [timeProgressCore, if_pos hd]
  · intro he
    rw [timeProgressCore, if_neg (by omega), if_pos he]
  · intro h1 h2
    rw [timeProgressCore, if_neg (by omega), if_neg (by omega)]
  · rw [timeProgressCore, if_neg (by omega), if_neg (by omega)]
    have h5 : ((s + 5 - s : ℤ) : ℚ) = 5 := by push_cast; ring
    have h10 : ((s + 10 - s : ℤ) : ℚ) = 10 := by push_cast; ring
    rw [h5, h10]
    norm_num
  · by_cases h1 : d ≤ s
    · rw [timeProgressCore, if_pos h1]; norm_num
    · by_cases h2 : e ≤ d
      · rw [timeProgressCore, if_neg h1, if_pos h2]; norm_num
      · rw [timeProgressCore, if_neg h1, if_neg h2]
        have hds : (0 : ℤ) < d - s := by omega
        have hes : (0 : ℤ) < e - s := by omega
        have hle : d - s ≤ e - s := by omega
        constructor
        · apply div_nonneg
          · exact_mod_cast hds.le
          · exact_mod_cast hes.le
        · rw [div_le_one (by exact_mod_cast hes)]
          exact_mod_cast hle

/-- Witness for C4: the midpoint of the concrete 10-day window `[0, 10]`. -/
theorem c4_time_progress_witness : timeProgressCore 5 0 10 = 1 / 2 := by
  have h := (c4_time_progress 0 10 5 (by decide)).2.2.2.1
  norm_num at h
  exact h

/-- C5.  Phase selection returns the first phase of `PHASES` whose inclusive
window contains the date, falls back to the last phase `PHASES[-1]` when no
window contains it (so it always returns a phase), and on each phase's exact
end date selects that phase with time progress `1.0`. -/
theorem c5_phase_selection (today : ℤ) :
    (∀ (pre : List PhaseDef) (p : PhaseDef) (post : List PhaseDef),
        PHASES = pre ++ p :: post →
        (∀ q ∈ pre, ¬ (q.startDate ≤ today ∧ today ≤ q.endDate)) →
        p.startDate ≤ today → today ≤ p.endDate →
        get_current_phase today = (p.code, p.desc)) ∧
    ((∀ p ∈ PHASES, ¬ (p.startDate ≤ today ∧ today ≤ p.endDate)) →
        get_current_phase today = (lastPhase.code, lastPhase.desc)) ∧
    (∀ p ∈ PHASES, get_current_phase p.endDate = (p.code, p.desc) ∧
        get_time_progress p.endDate p.code = some 1) := by
  refine ⟨?_, ?_, ?_⟩
  · intro pre p post hsplit hpre h1 h2
    rw [get_current_phase, hsplit, phaseLoop_first today pre p post hpre h1 h2]
  · intro h
    rw [get_current_phase, phaseLoop_none today PHASES h]
  · decide

/-- Witness for C5: `2025-05-15` is the exact end date of phase P0. -/
theorem c5_phase_selection_witness :
    get_current_phase (daysFromCivil 2025 5 15) =
      ("P0", "2D CFD: Stokes5 & focusing wave, grid convergence (<3%)") ∧
    get_time_progress (daysFromCivil 2025 5 15) "P0" = some 1 := by
  have h := (c5_phase_selection 0).2.2 ⟨"P0", daysFromCivil 2025 4 22, daysFromCivil 2025 5 15,
    "2D CFD: Stokes5 & focusing wave, grid convergence (<3%)"⟩ (by decide)
  exact h

/-- C6.  The two guarded divisions of lines 220-221: with no records the
completion rate is the literal `0`, with zero total estimate the efficiency is
the literal `1.0`, and whenever either guard lets the division run its
denominator is nonzero. -/
theorem c6_division_guards (dy : List DoneRec) (ty : List TodoRec) :
    (dy = [] → ty = [] → task_rate dy ty = 0) ∧
    (total_est dy ty = 0 → efficiency dy ty = 1) ∧
    ((dy ≠ [] ∨ ty ≠ []) → ((dy.length : ℚ) + (ty.length : ℚ)) ≠ 0) ∧
    (total_est dy ty ≠ 0 → efficiency dy ty = total_spent dy ty / total_est dy ty) := by
  refine ⟨?_, ?_, ?_, ?_⟩
  · intro h1 h2
    subst h1; subst h2
    rw [task_rate, if_neg (by simp)]
  · intro h
    rw [efficiency, if_neg (by simp [h])]
  · intro h
    have hpos : 0 < dy.length + ty.length := by
      rcases h with h | h
      · have := List.length_pos.mpr h; omega
      · have := List.length_pos.mpr h; omega
    have hq : (0 : ℚ) < (dy.length : ℚ) + (ty.length : ℚ) := by exact_mod_cast hpos
    exact ne_of_gt hq
  · intro h
    rw [efficiency, if_pos h]

/-- Witness for C6 on the empty record lists. -/
theorem c6_division_guards_witness : task_rate [] [] = 0 ∧ efficiency [] [] = 1 :=
  ⟨(c6_division_guards [] []).1 rfl rfl, (c6_division_guards [] []).2.1 rfl⟩

/-- C7.  A date whose journal file is absent parses to two empty lists and no
error is raised. -/
theorem c7_missing_file (fs : FS) (date : ℤ) (h : fs date = none) :
    parse_tasks_for_date fs date = .ok ([], []) := by
  rw [parse_tasks_for_date, h]

/-- Witness for C7 at the empty journal directory. -/
theorem c7_missing_file_witness : parse_tasks_for_date fsEmpty 0 = .ok ([], []) :=
  c7_missing_file fsEmpty 0 rfl

/-- C9.  The progress calculator (phase selection, time progress and the four
aggregate metrics) is a pure function of the evaluation date and the parsed
records: two runs on equal inputs give equal outputs.  (In this embedding the
calculator is a function, which also witnesses that it performs no effects;
the clock read `date.today()` of the script is the `today` input.) -/
theorem c9_calculator_deterministic (t1 t2 : ℤ) (d1 d2 : List DoneRec)
    (y1 y2 : List TodoRec) (ht : t1 = t2) (hd : d1 = d2) (hy : y1 = y2) :
    calcMetrics t1 d1 y1 = calcMetrics t2 d2 y2 := by
  subst ht; subst hd; subst hy
  rfl

/-- Witness for C9 at concrete inputs. -/
theorem c9_calculator_deterministic_witness :
    calcMetrics 0 [] [] = calcMetrics 0 [] [] :=
  c9_calculator_deterministic 0 0 [] [] [] [] rfl rfl rfl

/-! Per-line parsing facts (claim C3). -/

lemma parseLine_some (line : List Char) (st : St) (txt : List Char)
    (h : taskMatch (stripChars line) = some (st, txt)) :
    parseLine line = (parseTask st txt).map some := by
  rw [parseLine, h]

lemma exceptMapSome_ok (e : Except PyErr (DoneRec ⊕ TodoRec)) (r : DoneRec ⊕ TodoRec)
    (h : e.map some = .ok (some r)) : e = .ok r := by
  cases e with
  | error a => simp [Except.map] at h
  | ok a => simp [Except.map] at h; rw [h]

lemma parseTask_est_err (st : St) (txt : List Char) (e : PyErr)
    (hE : pyFloatOrDefault (searchAnnot estPre ')' txt) 2 = .error e) :
    parseTask st txt = .error e := by
  rw [parseTask, hE]

lemma parseTask_done (txt : List Char) (est : ℚ)
    (hE : pyFloatOrDefault (searchAnnot estPre ')' txt) 2 = .ok est) :
    parseTask .DONE txt =
      match pyFloatOrDefault (searchAnnot durDonePre ']' txt) est with
      | .error e => .error e
      | .ok dur => .ok (.inl ⟨stripDoneText txt, est, dur⟩) := by
  rw [parseTask, hE]

lemma parseTask_todo (txt : List Char) (est : ℚ)
    (hE : pyFloatOrDefault (searchAnnot estPre ')' txt) 2 = .ok est) :
    parseTask .TODO txt =
      match pyFloatOrDefault (searchAnnot durTodoPre ']' txt) 0 with
      | .error e => .error e
      | .ok spent => .ok (.inr ⟨stripTodoText txt, est, spent⟩) := by
  rw [parseTask, hE]

/-- C3.  Defaults of the per-line parse: a task line with no estimate
annotation gets `estimatedHours = 2.0`; a DONE line with no duration annotation
gets `actualHours = estimatedHours`; a TODO line with no spent annotation gets
`spent = 0.0`. -/
theorem c3_defaults (line : List Char) (st : St) (txt : List Char)
    (h : taskMatch (stripChars line) = some (st, txt)) :
    (searchAnnot estPre ')' txt = none →
      ∀ r, parseLine line = .ok (some r) → recEst r = 2) ∧
    (st = .DONE → searchAnnot durDonePre ']' txt = none →
      ∀ d, parseLine line = .ok (some (.inl d)) → d.dur = d.est) ∧
    (st = .TODO → searchAnnot durTodoPre ']' txt = none →
      ∀ t, parseLine line = .ok (some (.inr t)) → t.spent = 0) := by
  have hPL : parseLine line = (parseTask st txt).map some := parseLine_some line st txt h
  refine ⟨?_, ?_, ?_⟩
  · intro he r hr
    rw [hPL] at hr
    replace hr := exceptMapSome_ok _ _ hr
    have hE : pyFloatOrDefault (searchAnnot estPre ')' txt) 2 = .ok 2 := by rw [he]; rfl
    cases st with
    | DONE =>
      rw [parseTask_done txt 2 hE] at hr
      cases hdur : pyFloatOrDefault (searchAnnot durDonePre ']' txt) 2 with
      | error e => rw [hdur] at hr; simp at hr
      | ok dur =>
        rw [hdur] at hr
        simp only [Except.ok.injEq] at hr
        rw [← hr]
        rfl
    | TODO =>
      rw [parseTask_todo txt 2 hE] at hr
      cases hsp : pyFloatOrDefault (searchAnnot durTodoPre ']' txt) 0 with
      | error e => rw [hsp] at hr; simp at hr
      | ok spent =>
        rw [hsp] at hr
        simp only [Except.ok.injEq] at hr
        rw [← hr]
        rfl
  · intro hD he d hr
    subst hD
    rw [hPL] at hr
    replace hr := exceptMapSome_ok _ _ hr
    cases hEv : pyFloatOrDefault (searchAnnot estPre ')' txt) 2 with
    | error e => rw [parseTask_est_err .DONE txt e hEv] at hr; simp at hr
    | ok est =>
      rw [parseTask_done txt est hEv] at hr
      have hD2 : pyFloatOrDefault (searchAnnot durDonePre ']' txt) est = .ok est := by
        rw [he]; rfl
      rw [hD2] at hr
      simp only [Except.ok.injEq, Sum.inl.injEq] at hr
      rw [← hr]
  · intro hT he t hr
    subst hT
    rw [hPL] at hr
    replace hr := exceptMapSome_ok _ _ hr
    cases hEv : pyFloatOrDefault (searchAnnot estPre ')' txt) 2 with
    | error e => rw [parseTask_est_err .TODO txt e hEv] at hr; simp at hr
    | ok est =>
      rw [parseTask_todo txt est hEv] at hr
      have hT2 : pyFloatOrDefault (searchAnnot durTodoPre ']' txt) 0 = .ok 0 := by
        rw [he]; rfl
      rw [hT2] at hr
      simp only [Except.ok.injEq, Sum.inr.injEq] at hr
      rw [← hr]

/-- Witness for C3 on the concrete line `- DONE fix mesh` (no annotations). -/
theorem c3_defaults_witness :
    recEst (.inl ⟨("fix mesh").toList, 2, 2⟩) = 2 ∧
    (⟨("fix mesh").toList, 2, 2⟩ : DoneRec).dur = (⟨("fix mesh").toList, 2, 2⟩ : DoneRec).est := by
  have h := c3_defaults (("- DONE fix mesh").toList) .DONE (("fix mesh").toList) (by rfl)
  exact ⟨h.1 (by rfl) (.inl ⟨("fix mesh").toList, 2, 2⟩) (by rfl),
    h.2.1 rfl (by rfl) ⟨("fix mesh").toList, 2, 2⟩ (by rfl)⟩

/-! Support lemmas for the stripping round-trip (C8) and the status-specific
stripping behaviour (C10). -/

lemma annotAt_nil (pre : List Char) (close : Char) : annotAt pre close [] = none := by
  cases pre <;> rfl

lemma searchAnnot_head_some (pre : List Char) (close : Char) (l num rest : List Char)
    (h : annotAt pre close l = some (num, rest)) : searchAnnot pre close l = some num := by
  cases l with
  | nil => rw [annotAt_nil] at h; exact absurd h (by simp)
  | cons c s => exact searchAnnot_cons_some pre close c s num rest h

lemma subAnnot_head_some (pre : List Char) (close : Char) (l num rest : List Char)
    (h : annotAt pre close l = some (num, rest)) :
    subAnnot pre close l = subAnnot pre close rest := by
  cases l with
  | nil => rw [annotAt_nil] at h; exact absurd h (by simp)
  | cons c s => exact subAnnot_cons_some pre close c s num rest h

lemma dropWhile_append_fix (q : Char → Bool) (a b : List Char) (hne : a ≠ [])
    (ha : a.dropWhile q = a) : (a ++ b).dropWhile q = a ++ b := by
  obtain ⟨c, cs, rfl⟩ : ∃ c cs, a = c :: cs := by
    cases a with
    | nil => exact absurd rfl hne
    | cons c cs => exact ⟨c, cs, rfl⟩
  have hc := dropWhile_fix_head q c cs ha
  rw [List.cons_append]
  exact dropWhile_head_of_neg q c _ hc

lemma rev_fix_append (X Y : List Char) (hne : Y ≠ [])
    (hY : Y.reverse.dropWhile pySpace = Y.reverse) :
    ((X ++ Y).reverse).dropWhile pySpace = (X ++ Y).reverse := by
  obtain ⟨c, cs, hcs⟩ : ∃ c cs, Y.reverse = c :: cs := by
    cases hYr : Y.reverse with
    | nil =>
      have : Y = [] := by simpa using congrArg List.reverse hYr
      exact absurd this hne
    | cons c cs => exact ⟨c, cs, rfl⟩
  have hc : pySpace c = false := dropWhile_fix_head pySpace c cs (hcs ▸ hY)
  rw [List.reverse_append, hcs, List.cons_append]
  exact dropWhile_head_of_neg pySpace c _ hc

lemma rev_singleton_fix (Z : List Char) (c : Char) (hc : pySpace c = false) :
    ((Z ++ [c]).reverse).dropWhile pySpace = (Z ++ [c]).reverse := by
  rw [List.reverse_append]
  exact dropWhile_head_of_neg pySpace c _ hc

lemma strip_trailing_spaces (t : List Char) (hne : t ≠ []) (h1 : t.dropWhile pySpace = t)
    (h2 : t.reverse.dropWhile pySpace = t.reverse) : stripChars (t ++ [' ', ' ']) = t := by
  unfold stripChars
  rw [dropWhile_append_fix pySpace t [' ', ' '] hne h1]
  have hb : (t ++ [' ', ' ']).reverse = ' ' :: ' ' :: t.reverse := by simp
  rw [hb, List.dropWhile_cons, if_pos (by decide), List.dropWhile_cons, if_pos (by decide),
    h2, List.reverse_reverse]

lemma searchAnnot_est_append (a b : List Char) (ha : ∀ c ∈ a, c ≠ '(') :
    searchAnnot estPre ')' (a ++ b) = searchAnnot estPre ')' b :=
  searchAnnot_append '(' ['预', '计'] ')' a b ha

lemma searchAnnot_durDone_append (a b : List Char) (ha : ∀ c ∈ a, c ≠ '[') :
    searchAnnot durDonePre ']' (a ++ b) = searchAnnot durDonePre ']' b :=
  searchAnnot_append '[' ['耗', '时'] ']' a b ha

lemma searchAnnot_durTodo_append (a b : List Char) (ha : ∀ c ∈ a, c ≠ '[') :
    searchAnnot durTodoPre ']' (a ++ b) = searchAnnot durTodoPre ']' b :=
  searchAnnot_append '[' ['已', '耗', '时'] ']' a b ha

lemma searchAnnot_est_none (a : List Char) (ha : ∀ c ∈ a, c ≠ '(') :
    searchAnnot estPre ')' a = none :=
  searchAnnot_none_of_all '(' ['预', '计'] ')' a ha

lemma searchAnnot_durDone_none (a : List Char) (ha : ∀ c ∈ a, c ≠ '[') :
    searchAnnot durDonePre ']' a = none :=
  searchAnnot_none_of_all '[' ['耗', '时'] ']' a ha

lemma searchAnnot_durTodo_none (a : List Char) (ha : ∀ c ∈ a, c ≠ '[') :
    searchAnnot durTodoPre ']' a = none :=
  searchAnnot_none_of_all '[' ['已', '耗', '时'] ']' a ha

lemma subAnnot_est_append (a b : List Char) (ha : ∀ c ∈ a, c ≠ '(') :
    subAnnot estPre ')' (a ++ b) = a ++ subAnnot estPre ')' b :=
  subAnnot_append '(' ['预', '计'] ')' a b ha

lemma subAnnot_durDone_append (a b : List Char) (ha : ∀ c ∈ a, c ≠ '[') :
    subAnnot durDonePre ']' (a ++ b) = a ++ subAnnot durDonePre ']' b :=
  subAnnot_append '[' ['耗', '时'] ']' a b ha

lemma annotAt_est_cons_none (c : Char) (s : List Char) (h : c ≠ '(') :
    annotAt estPre ')' (c :: s) = none :=
  annotAt_none_of_head '(' ['预', '计'] ')' c s h

lemma annotAt_durDone_cons_none (c : Char) (s : List Char) (h : c ≠ '[') :
    annotAt durDonePre ']' (c :: s) = none :=
  annotAt_none_of_head '[' ['耗', '时'] ']' c s h

lemma estMarker_append (se r : List Char) :
    estMarker se ++ r = estPre ++ ' ' :: (se ++ 'h' :: ')' :: r) := by
  simp [estMarker, List.append_assoc]

lemma taskMatch_done_line (body : List Char) :
    taskMatch ('-' :: ' ' :: 'D' :: 'O' :: 'N' :: 'E' :: ' ' :: body) =
      some (.DONE, body.dropWhile pySpace) := rfl

lemma taskMatch_todo_line (body : List Char) :
    taskMatch ('-' :: ' ' :: 'T' :: 'O' :: 'D' :: 'O' :: ' ' :: body) =
      some (.TODO, body.dropWhile pySpace) := rfl

lemma pyFloatOrDefault_some (s : List Char) (q dflt : ℚ) (h : pyFloat s = some q) :
    pyFloatOrDefault (some s) dflt = .ok q := by
  rw [pyFloatOrDefault, h]

lemma mem_estMarker (se : List Char) (c : Char) (hc : c ∈ estMarker se) :
    c = '(' ∨ c = '预' ∨ c = '计' ∨ c = ' ' ∨ c ∈ se ∨ c = 'h' ∨ c = ')' := by
  simp [estMarker, estPre] at hc
  tauto

lemma mem_durDoneMarker (sd : List Char) (c : Char) (hc : c ∈ durDoneMarker sd) :
    c = '[' ∨ c = '耗' ∨ c = '时' ∨ c = ' ' ∨ c ∈ sd ∨ c = 'h' ∨ c = ']' := by
  simp [durDoneMarker, durDonePre] at hc
  tauto

lemma mem_durTodoMarker (sd : List Char) (c : Char) (hc : c ∈ durTodoMarker sd) :
    c = '[' ∨ c = '已' ∨ c = '耗' ∨ c = '时' ∨ c = ' ' ∨ c ∈ sd ∨ c = 'h' ∨ c = ']' := by
  simp [durTodoMarker, durTodoPre] at hc
  tauto

/-- C8, counterexample.  The stripping step is *not* idempotent on
already-stripped text, and the strip/re-append round trip does *not* re-parse
to the original numbers.  Removing the inner estimate annotation of
`(预计(预计 5h) 3h)` concatenates the remains into a fresh annotation
`(预计 3h)`, which a second strip removes; re-appending the parsed values
(est 5) to the stripped text re-parses to est 3. -/
theorem c8_strip_not_idempotent :
    stripDoneText (("(预计(预计 5h) 3h)").toList) = ("(预计 3h)").toList ∧
    stripDoneText (("(预计 3h)").toList) = [] ∧
    ("(预计 3h)").toList ≠ [] ∧
    parseLine (("- DONE (预计(预计 5h) 3h)").toList) =
      .ok (some (.inl ⟨("(预计 3h)").toList, 5, 5⟩)) ∧
    parseLine (("- DONE (预计 3h) (预计 5h) [耗时 5h]").toList) =
      .ok (some (.inl ⟨[], 3, 5⟩)) ∧
    (3 : ℚ) ≠ 5 := by
  refine ⟨by decide, by decide, by decide, by rfl, by rfl, by decide⟩

/-- C8, amended.  (1) On already-stripped text in which no estimate or
duration pattern occurrence remains, the stripping step is the identity.
(2) For a stripped description `t` containing no `(` and no `[`, appending a
fresh estimate annotation and a fresh duration annotation produces a DONE line
that re-parses to exactly `t` with the numeric values of the appended
annotations. -/
theorem c8_strip_roundtrip :
    (∀ ts : List Char, searchAnnot estPre ')' ts = none →
        searchAnnot durDonePre ']' ts = none → stripChars ts = ts → stripDoneText ts = ts) ∧
    (∀ (t se sd : List Char) (qe qd : ℚ),
        (∀ c ∈ t, c ≠ '(') → (∀ c ∈ t, c ≠ '[') → t ≠ [] →
        t.dropWhile pySpace = t → t.reverse.dropWhile pySpace = t.reverse →
        (∀ c ∈ se, isNumDot c = true) → se ≠ [] → pyFloat se = some qe →
        (∀ c ∈ sd, isNumDot c = true) → sd ≠ [] → pyFloat sd = some qd →
        parseLine ('-' :: ' ' :: 'D' :: 'O' :: 'N' :: 'E' :: ' ' ::
            (t ++ ' ' :: (estMarker se ++ ' ' :: durDoneMarker sd))) =
          .ok (some (.inl ⟨t, qe, qd⟩))) := by
  constructor
  · intro ts h1 h2 h3
    rw [stripDoneText, subAnnot_id_of_search_none estPre ')' ts h1,
      subAnnot_id_of_search_none durDonePre ']' ts h2]
    exact h3
  · intro t se sd qe qd htp htb htne htl htr hse hsene hqe hsd hsdne hqd
    have hlead : (t ++ ' ' :: (estMarker se ++ ' ' :: durDoneMarker sd)).dropWhile pySpace
        = t ++ ' ' :: (estMarker se ++ ' ' :: durDoneMarker sd) :=
      dropWhile_append_fix pySpace t _ htne htl
    have hmrev : (durDoneMarker sd).reverse.dropWhile pySpace = (durDoneMarker sd).reverse := by
      have hsnoc : durDoneMarker sd = (durDonePre ++ ' ' :: (sd ++ ['h'])) ++ [']'] := by
        simp [durDoneMarker, List.append_assoc]
      rw [hsnoc]
      exact rev_singleton_fix _ ']' (by decide)
    have hL : ('-' :: ' ' :: 'D' :: 'O' :: 'N' :: 'E' :: ' ' ::
        (t ++ ' ' :: (estMarker se ++ ' ' :: durDoneMarker sd)))
        = (('-' :: ' ' :: 'D' :: 'O' :: 'N' :: 'E' :: ' ' :: t) ++
            ' ' :: (estMarker se ++ [' '])) ++ durDoneMarker sd := by
      simp [List.append_assoc]
    have hLrev : (('-' :: ' ' :: 'D' :: 'O' :: 'N' :: 'E' :: ' ' ::
        (t ++ ' ' :: (estMarker se ++ ' ' :: durDoneMarker sd))).reverse).dropWhile pySpace
        = ('-' :: ' ' :: 'D' :: 'O' :: 'N' :: 'E' :: ' ' ::
            (t ++ ' ' :: (estMarker se ++ ' ' :: durDoneMarker sd))).reverse := by
      rw [hL]
      exact rev_fix_append _ _ (by simp [durDoneMarker, durDonePre]) hmrev
    have hstripL : stripChars ('-' :: ' ' :: 'D' :: 'O' :: 'N' :: 'E' :: ' ' ::
        (t ++ ' ' :: (estMarker se ++ ' ' :: durDoneMarker sd)))
        = '-' :: ' ' :: 'D' :: 'O' :: 'N' :: 'E' :: ' ' ::
            (t ++ ' ' :: (estMarker se ++ ' ' :: durDoneMarker sd)) :=
      stripChars_eq_self _ (dropWhile_head_of_neg pySpace '-' _ (by decide)) hLrev
    have hTM : taskMatch (stripChars ('-' :: ' ' :: 'D' :: 'O' :: 'N' :: 'E' :: ' ' ::
        (t ++ ' ' :: (estMarker se ++ ' ' :: durDoneMarker sd))))
        = some (.DONE, t ++ ' ' :: (estMarker se ++ ' ' :: durDoneMarker sd)) := by
      rw [hstripL, taskMatch_done_line, hlead]
    have hSE : searchAnnot estPre ')' (t ++ ' ' :: (estMarker se ++ ' ' :: durDoneMarker sd))
        = some se := by
      rw [searchAnnot_est_append t _ htp,
        searchAnnot_cons_none estPre ')' ' ' _ (annotAt_est_cons_none ' ' _ (by decide)),
        estMarker_append]
      exact searchAnnot_head_some _ _ _ _ _ (annotAt_marker estPre ')' se _ hse hsene)
    have hmem : ∀ c ∈ ' ' :: (estMarker se ++ [' ']), c ≠ '[' := by
      intro c hc
      rcases List.mem_cons.mp hc with rfl | hc2
      · decide
      · rcases List.mem_append.mp hc2 with hc3 | hc4
        · rcases mem_estMarker se c hc3 with rfl | rfl | rfl | rfl | h | rfl | rfl
          · decide
          · decide
          · decide
          · decide
          · exact numdot_ne_brak c (hse c h)
          · decide
          · decide
        · have hc5 : c = ' ' := by simpa using hc4
          subst hc5
          decide
    have hsplit : ' ' :: (estMarker se ++ ' ' :: durDoneMarker sd)
        = (' ' :: (estMarker se ++ [' '])) ++ durDoneMarker sd := by
      simp [List.append_assoc]
    have hDD : durDoneMarker sd = durDonePre ++ ' ' :: (sd ++ 'h' :: ']' :: []) := rfl
    have hSD : searchAnnot durDonePre ']' (t ++ ' ' :: (estMarker se ++ ' ' :: durDoneMarker sd))
        = some sd := by
      rw [searchAnnot_durDone_append t _ htb, hsplit, searchAnnot_durDone_append _ _ hmem, hDD]
      exact searchAnnot_head_some _ _ _ _ _ (annotAt_marker durDonePre ']' sd [] hsd hsdne)
    have hidDD : subAnnot estPre ')' (durDoneMarker sd) = durDoneMarker sd := by
      refine subAnnot_id_of_all '(' ['预', '计'] ')' (durDoneMarker sd) ?_
      intro c hc
      rcases mem_durDoneMarker sd c hc with rfl | rfl | rfl | rfl | h | rfl | rfl
      · decide
      · decide
      · decide
      · decide
      · exact numdot_ne_paren c (hsd c h)
      · decide
      · decide
    have hsubE : subAnnot estPre ')' (t ++ ' ' :: (estMarker se ++ ' ' :: durDoneMarker sd))
        = t ++ ' ' :: ' ' :: durDoneMarker sd := by
      rw [subAnnot_est_append t _ htp,
        subAnnot_cons_none estPre ')' ' ' _ (annotAt_est_cons_none ' ' _ (by decide)),
        estMarker_append,
        subAnnot_head_some _ _ _ _ _ (annotAt_marker estPre ')' se _ hse hsene),
        subAnnot_cons_none estPre ')' ' ' _ (annotAt_est_cons_none ' ' _ (by decide)),
        hidDD]
    have hmem2 : ∀ c ∈ t ++ [' ', ' '], c ≠ '[' := by
      intro c hc
      rcases List.mem_append.mp hc with h | h
      · exact htb c h
      · have hc5 : c = ' ' := by simpa using h
        subst hc5
        decide
    have hsplit2 : t ++ ' ' :: ' ' :: durDoneMarker sd = (t ++ [' ', ' ']) ++ durDoneMarker sd := by
      simp [List.append_assoc]
    have hsubD : subAnnot durDonePre ']' (t ++ ' ' :: ' ' :: durDoneMarker sd)
        = t ++ [' ', ' '] := by
      rw [hsplit2, subAnnot_durDone_append _ _ hmem2, hDD,
        subAnnot_head_some _ _ _ _ _ (annotAt_marker durDonePre ']' sd [] hsd hsdne)]
      have h0 : subAnnot durDonePre ']' ([] : List Char) = [] := rfl
      rw [h0, List.append_nil]
    have hText : stripDoneText (t ++ ' ' :: (estMarker se ++ ' ' :: durDoneMarker sd)) = t := by
      rw [stripDoneText, hsubE, hsubD]
      exact strip_trailing_spaces t htne htl htr
    have hE : pyFloatOrDefault
        (searchAnnot estPre ')' (t ++ ' ' :: (estMarker se ++ ' ' :: durDoneMarker sd))) 2
        = .ok qe := by
      rw [hSE]
      exact pyFloatOrDefault_some se qe 2 hqe
    have hD2 : pyFloatOrDefault
        (searchAnnot durDonePre ']' (t ++ ' ' :: (estMarker se ++ ' ' :: durDoneMarker sd))) qe
        = .ok qd := by
      rw [hSD]
      exact pyFloatOrDefault_some sd qd qe hqd
    rw [parseLine_some _ _ _ hTM, parseTask_done _ qe hE, hD2, hText]
    rfl

/-- Witness for the amended C8 on the description `Run case` with annotations
`(预计 3h)` and `[耗时 4.5h]`. -/
theorem c8_strip_roundtrip_witness :
    stripDoneText (("Run case").toList) = ("Run case").toList ∧
    parseLine ('-' :: ' ' :: 'D' :: 'O' :: 'N' :: 'E' :: ' ' ::
        (("Run case").toList ++ ' ' ::
          (estMarker (("3").toList) ++ ' ' :: durDoneMarker (("4.5").toList))))
      = .ok (some (.inl ⟨("Run case").toList, 3, 9 / 2⟩)) := by
  have hqe : pyFloat (("3").toList) = some 3 := by
    show some ((digitsToNat (("3").toList) : ℚ)) = some 3
    have h3 : digitsToNat (("3").toList) = 3 := rfl
    rw [h3]
    norm_num
  have hqd : pyFloat (("4.5").toList) = some (9 / 2) := by
    show some ((digitsToNat (("4").toList) : ℚ) +
      (digitsToNat (("5").toList) : ℚ) / (10 : ℚ) ^ 1) = some (9 / 2)
    have h4 : digitsToNat (("4").toList) = 4 := rfl
    have h5 : digitsToNat (("5").toList) = 5 := rfl
    rw [h4, h5]
    norm_num
  constructor
  · exact c8_strip_roundtrip.1 (("Run case").toList) (by decide) (by decide) (by decide)
  · exact c8_strip_roundtrip.2 (("Run case").toList) (("3").toList) (("4.5").toList) 3 (9 / 2)
      (by decide) (by decide) (by decide) (by decide) (by decide)
      (by decide) (by decide) hqe (by decide) (by decide) hqd

lemma mem_three_append (t1 M t2 : List Char) (c : Char) (hc : c ∈ t1 ++ (M ++ t2)) :
    c ∈ t1 ∨ c ∈ M ∨ c ∈ t2 := by
  rcases List.mem_append.mp hc with h | h
  · exact Or.inl h
  · rcases List.mem_append.mp h with h | h
    · exact Or.inr (Or.inl h)
    · exact Or.inr (Or.inr h)

/-- C10.  Stripping and numeric extraction are status-specific.  A DONE line
only looks for the estimate and `[耗时 Xh]` markers, so a spent marker
`[已耗时 Xh]` inside a DONE line is kept verbatim in the emitted text and
contributes nothing to the duration (which falls back to the estimate
default).  Symmetrically a TODO line only looks for the estimate and
`[已耗时 Xh]` markers, so a `[耗时 Xh]` marker inside a TODO line is kept
verbatim and ignored numerically (spent falls back to `0`). -/
theorem c10_status_specific :
    (∀ (t1 t2 sd : List Char),
        (∀ c ∈ t1, c ≠ '(') → (∀ c ∈ t1, c ≠ '[') →
        (∀ c ∈ t2, c ≠ '(') → (∀ c ∈ t2, c ≠ '[') →
        (∀ c ∈ sd, isNumDot c = true) → sd ≠ [] →
        (t1 ++ (durTodoMarker sd ++ t2)).dropWhile pySpace = t1 ++ (durTodoMarker sd ++ t2) →
        (t1 ++ (durTodoMarker sd ++ t2)).reverse.dropWhile pySpace
          = (t1 ++ (durTodoMarker sd ++ t2)).reverse →
        parseLine ('-' :: ' ' :: 'D' :: 'O' :: 'N' :: 'E' :: ' ' ::
            (t1 ++ (durTodoMarker sd ++ t2)))
          = .ok (some (.inl ⟨t1 ++ (durTodoMarker sd ++ t2), 2, 2⟩))) ∧
    (∀ (t1 t2 sd : List Char),
        (∀ c ∈ t1, c ≠ '(') → (∀ c ∈ t1, c ≠ '[') →
        (∀ c ∈ t2, c ≠ '(') → (∀ c ∈ t2, c ≠ '[') →
        (∀ c ∈ sd, isNumDot c = true) → sd ≠ [] →
        (t1 ++ (durDoneMarker sd ++ t2)).dropWhile pySpace = t1 ++ (durDoneMarker sd ++ t2) →
        (t1 ++ (durDoneMarker sd ++ t2)).reverse.dropWhile pySpace
          = (t1 ++ (durDoneMarker sd ++ t2)).reverse →
        parseLine ('-' :: ' ' :: 'T' :: 'O' :: 'D' :: 'O' :: ' ' ::
            (t1 ++ (durDoneMarker sd ++ t2)))
          = .ok (some (.inr ⟨t1 ++ (durDoneMarker sd ++ t2), 2, 0⟩))) := by
  constructor
  · intro t1 t2 sd ht1p ht1b ht2p ht2b hsd hsdne hlead htrail
    have hbodyne : t1 ++ (durTodoMarker sd ++ t2) ≠ [] := by
      simp [List.append_eq_nil, durTodoMarker, durTodoPre]
    have hLsplit : '-' :: ' ' :: 'D' :: 'O' :: 'N' :: 'E' :: ' ' ::
        (t1 ++ (durTodoMarker sd ++ t2))
        = ['-', ' ', 'D', 'O', 'N', 'E', ' '] ++ (t1 ++ (durTodoMarker sd ++ t2)) := rfl
    have hstripL : stripChars ('-' :: ' ' :: 'D' :: 'O' :: 'N' :: 'E' :: ' ' ::
        (t1 ++ (durTodoMarker sd ++ t2)))
        = '-' :: ' ' :: 'D' :: 'O' :: 'N' :: 'E' :: ' ' :: (t1 ++ (durTodoMarker sd ++ t2)) := by
      refine stripChars_eq_self _ (dropWhile_head_of_neg pySpace '-' _ (by decide)) ?_
      rw [hLsplit]
      exact rev_fix_append _ _ hbodyne htrail
    have hTM : taskMatch (stripChars ('-' :: ' ' :: 'D' :: 'O' :: 'N' :: 'E' :: ' ' ::
        (t1 ++ (durTodoMarker sd ++ t2))))
        = some (.DONE, t1 ++ (durTodoMarker sd ++ t2)) := by
      rw [hstripL, taskMatch_done_line, hlead]
    have hestnone : searchAnnot estPre ')' (t1 ++ (durTodoMarker sd ++ t2)) = none := by
      apply searchAnnot_est_none
      intro c hc
      rcases mem_three_append t1 (durTodoMarker sd) t2 c hc with h | h | h
      · exact ht1p c h
      · rcases mem_durTodoMarker sd c h with rfl | rfl | rfl | rfl | rfl | h2 | rfl | rfl
        · decide
        · decide
        · decide
        · decide
        · decide
        · exact numdot_ne_paren c (hsd c h2)
        · decide
        · decide
      · exact ht2p c h
    have hM : durTodoMarker sd ++ t2
        = '[' :: ('已' :: '耗' :: '时' :: ' ' :: ((sd ++ ['h', ']']) ++ t2)) := rfl
    have hddnone : searchAnnot durDonePre ']' (t1 ++ (durTodoMarker sd ++ t2)) = none := by
      rw [searchAnnot_durDone_append t1 _ ht1b, hM,
        searchAnnot_cons_none durDonePre ']' '[' _ (by rfl)]
      apply searchAnnot_durDone_none
      intro c hc
      rcases List.mem_cons.mp hc with rfl | hc
      · decide
      rcases List.mem_cons.mp hc with rfl | hc
      · decide
      rcases List.mem_cons.mp hc with rfl | hc
      · decide
      rcases List.mem_cons.mp hc with rfl | hc
      · decide
      rcases List.mem_append.mp hc with h | h
      · rcases List.mem_append.mp h with h | h
        · exact numdot_ne_brak c (hsd c h)
        · have h2 : c = 'h' ∨ c = ']' := by simpa using h
          rcases h2 with rfl | rfl
          · decide
          · decide
      · exact ht2b c h
    have hText : stripDoneText (t1 ++ (durTodoMarker sd ++ t2))
        = t1 ++ (durTodoMarker sd ++ t2) := by
      rw [stripDoneText, subAnnot_id_of_search_none estPre ')' _ hestnone,
        subAnnot_id_of_search_none durDonePre ']' _ hddnone]
      exact stripChars_eq_self _ hlead htrail
    have hE : pyFloatOrDefault (searchAnnot estPre ')' (t1 ++ (durTodoMarker sd ++ t2))) 2
        = .ok 2 := by
      rw [hestnone]
      rfl
    have hD : pyFloatOrDefault (searchAnnot durDonePre ']' (t1 ++ (durTodoMarker sd ++ t2))) 2
        = .ok 2 := by
      rw [hddnone]
      rfl
    rw [parseLine_some _ _ _ hTM, parseTask_done _ 2 hE, hD, hText]
    rfl
  · intro t1 t2 sd ht1p ht1b ht2p ht2b hsd hsdne hlead htrail
    have hbodyne : t1 ++ (durDoneMarker sd ++ t2) ≠ [] := by
      simp [List.append_eq_nil, durDoneMarker, durDonePre]
    have hLsplit : '-' :: ' ' :: 'T' :: 'O' :: 'D' :: 'O' :: ' ' ::
        (t1 ++ (durDoneMarker sd ++ t2))
        = ['-', ' ', 'T', 'O', 'D', 'O', ' '] ++ (t1 ++ (durDoneMarker sd ++ t2)) := rfl
    have hstripL : stripChars ('-' :: ' ' :: 'T' :: 'O' :: 'D' :: 'O' :: ' ' ::
        (t1 ++ (durDoneMarker sd ++ t2)))
        = '-' :: ' ' :: 'T' :: 'O' :: 'D' :: 'O' :: ' ' :: (t1 ++ (durDoneMarker sd ++ t2)) := by
      refine stripChars_eq_self _ (dropWhile_head_of_neg pySpace '-' _ (by decide)) ?_
      rw [hLsplit]
      exact rev_fix_append _ _ hbodyne htrail
    have hTM : taskMatch (stripChars ('-' :: ' ' :: 'T' :: 'O' :: 'D' :: 'O' :: ' ' ::
        (t1 ++ (durDoneMarker sd ++ t2))))
        = some (.TODO, t1 ++ (durDoneMarker sd ++ t2)) := by
      rw [hstripL, taskMatch_todo_line, hlead]
    have hestnone : searchAnnot estPre ')' (t1 ++ (durDoneMarker sd ++ t2)) = none := by
      apply searchAnnot_est_none
      intro c hc
      rcases mem_three_append t1 (durDoneMarker sd) t2 c hc with h | h | h
      · exact ht1p c h
      · rcases mem_durDoneMarker sd c h with rfl | rfl | rfl | rfl | h2 | rfl | rfl
        · decide
        · decide
        · decide
        · decide
        · exact numdot_ne_paren c (hsd c h2)
        · decide
        · decide
      · exact ht2p c h
    have hM : durDoneMarker sd ++ t2
        = '[' :: ('耗' :: '时' :: ' ' :: ((sd ++ ['h', ']']) ++ t2)) := rfl
    have hdtnone : searchAnnot durTodoPre ']' (t1 ++ (durDoneMarker sd ++ t2)) = none := by
      rw [searchAnnot_durTodo_append t1 _ ht1b, hM,
        searchAnnot_cons_none durTodoPre ']' '[' _ (by rfl)]
      apply searchAnnot_durTodo_none
      intro c hc
      rcases List.mem_cons.mp hc with rfl | hc
      · decide
      rcases List.mem_cons.mp hc with rfl | hc
      · decide
      rcases List.mem_cons.mp hc with rfl | hc
      · decide
      rcases List.mem_append.mp hc with h | h
      · rcases List.mem_append.mp h with h | h
        · exact numdot_ne_brak c (hsd c h)
        · have h2 : c = 'h' ∨ c = ']' := by simpa using h
          rcases h2 with rfl | rfl
          · decide
          · decide
      · exact ht2b c h
    have hText : stripTodoText (t1 ++ (durDoneMarker sd ++ t2))
        = t1 ++ (durDoneMarker sd ++ t2) := by
      rw [stripTodoText, subAnnot_id_of_search_none estPre ')' _ hestnone,
        subAnnot_id_of_search_none durTodoPre ']' _ hdtnone]
      exact stripChars_eq_self _ hlead htrail
    have hE : pyFloatOrDefault (searchAnnot estPre ')' (t1 ++ (durDoneMarker sd ++ t2))) 2
        = .ok 2 := by
      rw [hestnone]
      rfl
    have hS : pyFloatOrDefault (searchAnnot durTodoPre ']' (t1 ++ (durDoneMarker sd ++ t2))) 0
        = .ok 0 := by
      rw [hdtnone]
      rfl
    rw [parseLine_some _ _ _ hTM, parseTask_todo _ 2 hE, hS, hText]
    rfl

/-- Witness for C10: a DONE line carrying a spent marker `[已耗时 3h]` keeps it
in the text with duration defaulting to the estimate default, and a TODO line
carrying a duration marker `[耗时 3h]` keeps it in the text with spent `0`. -/
theorem c10_status_specific_witness :
    parseLine ('-' :: ' ' :: 'D' :: 'O' :: 'N' :: 'E' :: ' ' ::
        ((("fix ").toList ++ (durTodoMarker (("3").toList) ++ [])))
      ) = .ok (some (.inl ⟨("fix ").toList ++ (durTodoMarker (("3").toList) ++ []), 2, 2⟩)) ∧
    parseLine ('-' :: ' ' :: 'T' :: 'O' :: 'D' :: 'O' :: ' ' ::
        ((("fix ").toList ++ (durDoneMarker (("3").toList) ++ [])))
      ) = .ok (some (.inr ⟨("fix ").toList ++ (durDoneMarker (("3").toList) ++ []), 2, 0⟩)) := by
  constructor
  · exact c10_status_specific.1 (("fix ").toList) [] (("3").toList)
      (by decide) (by decide) (by decide) (by decide) (by decide) (by decide)
      (by decide) (by decide)
  · exact c10_status_specific.2 (("fix ").toList) [] (("3").toList)
      (by decide) (by decide) (by decide) (by decide) (by decide) (by decide)
      (by decide) (by decide)
